import Mathlib

/- Verification development for src/steam_universal_layout.py: a runtime
   mapper that replays controller state as synthetic keyboard and mouse
   events.  The embedding models axis values as rationals, Python int()
   as truncation toward zero, Python dicts as insertion-ordered association
   lists, and the pynput injection sink as an emitted list of events. -/

set_option autoImplicit false

namespace Sul

/-- Virtual keyboard key identity: a member of pynput Key (special) or a
    KeyCode.from_char printable character (char). -/
inductive VKey where
  | special : String → VKey
  | char : Char → VKey
deriving DecidableEq

/-- Virtual mouse button identity; the source only ever uses Button.left and
    Button.right. -/
inductive MouseButton where
  | left : MouseButton
  | right : MouseButton
deriving DecidableEq

/-- One call into the injection sink: keyboard.press / keyboard.release /
    mouse.press / mouse.release / mouse.move of the source. -/
inductive Event where
  | keyDown : VKey → Event
  | keyUp : VKey → Event
  | mousePress : MouseButton → Event
  | mouseRelease : MouseButton → Event
  | mouseMove : ℤ → ℤ → Event
deriving DecidableEq

/-- Startup errors of the mapper: a Python KeyError raised by a missing dict
    key (carrying the missing key), or the ValueError raised by _resolve_key
    (carrying the offending key name). -/
inductive MapErr where
  | keyError : String → MapErr
  | unsupportedBinding : String → MapErr
deriving DecidableEq

/-- First-match lookup in an association list; Python dict indexing d[k]
    returns (alistFind m k) when it is some, and raises KeyError otherwise. -/
def alistFind {α β : Type} [DecidableEq α] : List (α × β) → α → Option β
  | [], _ => none
  | p :: rest, k => if p.1 = k then some p.2 else alistFind rest k

/-- Python d.get(k) on a dict of booleans, with the falsy default None
    collapsed to false (the source only ever tests truthiness). -/
def dictGet {α : Type} [DecidableEq α] (m : List (α × Bool)) (k : α) : Bool :=
  (alistFind m k).getD false

/-- Python dict assignment d[k] = v: overwrite the entry in place if the key
    exists, otherwise append at the end (insertion order preserved). -/
def dictSet {α β : Type} [DecidableEq α] : List (α × β) → α → β → List (α × β)
  | [], k, v => [(k, v)]
  | p :: rest, k, v => if p.1 = k then (k, v) :: rest else p :: dictSet rest k v

/-- Python int(q) for a rational: truncation toward zero (num and den of a
    Rat are reduced and den is positive, so truncated division is exact). -/
def int_trunc (q : ℚ) : ℤ := q.num.tdiv (q.den : ℤ)

/-- SPECIAL_KEYS of the source (lines 81-96), in source order: textual name
    to the pynput Key attribute name. -/
def SPECIAL_KEYS : List (String × String) :=
  [("space", "space"), ("esc", "esc"), ("escape", "esc"), ("enter", "enter"),
   ("return", "enter"), ("tab", "tab"), ("shift", "shift"), ("ctrl", "ctrl"),
   ("control", "ctrl"), ("alt", "alt"), ("left", "left"), ("right", "right"),
   ("up", "up"), ("down", "down")]

/-- Python str.lower(), character by character (the source only compares
    against the ASCII names of SPECIAL_KEYS, where this agrees with Python). -/
def str_lower (s : String) : String := String.mk (s.data.map Char.toLower)

/-- Python _resolve_key (lines 99-107): lower-case the name; a special key name
    resolves through SPECIAL_KEYS, any other single-character name resolves to
    that literal character, anything else raises ValueError naming the text. -/
def resolve_key (name : String) : Except MapErr VKey :=
  match alistFind SPECIAL_KEYS (str_lower name) with
  | some v => Except.ok (VKey.special v)
  | none =>
    if name.length = 1 then Except.ok (VKey.char (name.get ⟨0⟩))
    else Except.error (MapErr.unsupportedBinding name)

/-- key_bindings of _run_mapper (lines 248-257) resolve eight fixed literals
    before the loop starts; these constants are their values, and the lemma
    key_bindings_resolved below checks each against resolve_key. -/
def kb_w : VKey := VKey.char 'w'

def kb_a : VKey := VKey.char 'a'

def kb_s : VKey := VKey.char 's'

def kb_d : VKey := VKey.char 'd'

def kb_space : VKey := VKey.special "space"

def kb_escape : VKey := VKey.special "esc"

def kb_r : VKey := VKey.char 'r'

def kb_e : VKey := VKey.char 'e'

/-- AxisConfig dataclass (lines 110-116). -/
structure AxisConfig where
  x_axis : Int
  y_axis : Int
  threshold : ℚ
deriving DecidableEq

/-- MouseAxisConfig dataclass (lines 119-126). -/
structure MouseAxisConfig where
  x_axis : Int
  y_axis : Int
  sensitivity : ℚ
  deadzone : ℚ
deriving DecidableEq

/-- TriggerConfig dataclass (lines 129-135); the button field is carried but
    the loop hard-codes Button.left / Button.right (lines 298-299). -/
structure TriggerConfig where
  axis : Int
  threshold : ℚ
  button : String
deriving DecidableEq

/-- JSON shape of layout["axes"]["left_pad"] / ["right_pad"]: optional x and
    y entries (missing entries raise KeyError on access). -/
structure PadJson where
  x : Option Int
  y : Option Int
deriving DecidableEq

/-- JSON shape of layout["axes"]. -/
structure AxesJson where
  left_pad : Option PadJson
  right_pad : Option PadJson
deriving DecidableEq

/-- JSON shape of layout["triggers"]. -/
structure TriggersJson where
  left : Option Int
  right : Option Int
deriving DecidableEq

/-- JSON shape of layout["buttons"]; only a, b, x, y are ever read (with
    defaults), the remaining role names are declared but unused. -/
structure ButtonsJson where
  a : Option Int
  b : Option Int
  x : Option Int
  y : Option Int
  lb : Option Int
  rb : Option Int
  back : Option Int
  start : Option Int
deriving DecidableEq

/-- Top-level layout mapping: each field present or absent, as in a parsed
    JSON object. -/
structure LayoutJson where
  axes : Option AxesJson
  triggers : Option TriggersJson
  buttons : Option ButtonsJson
  exit_button : Option Int
deriving DecidableEq

/-- DEFAULT_LAYOUT of the source (lines 138-155). -/
def DEFAULT_LAYOUT : LayoutJson :=
  ⟨some ⟨some ⟨some 0, some 1⟩, some ⟨some 2, some 3⟩⟩,
   some ⟨some 4, some 5⟩,
   some ⟨some 0, some 1, some 2, some 3, some 4, some 5, some 6, some 7⟩,
   some 6⟩

/-- Python _load_layout (lines 158-165): with no source return DEFAULT_LAYOUT,
    otherwise return the parsed JSON data unchanged — no validation at all. -/
def load_layout (src : Option LayoutJson) : LayoutJson := src.getD DEFAULT_LAYOUT

/-- Command-line arguments relevant to the mapper (build_parser defaults:
    joystick index 0, sensitivity 18.0, deadzone 0.08, dpad threshold 0.45,
    trigger threshold 0.5, poll interval 0.01). -/
structure Args where
  joystick_index : Int
  mouse_sensitivity : ℚ
  mouse_deadzone : ℚ
  dpad_threshold : ℚ
  trigger_threshold : ℚ
  poll_interval : ℚ
deriving DecidableEq

/-- The parser defaults of build_parser (lines 329-380). -/
def defaultArgs : Args := ⟨0, 18, 8/100, 45/100, 1/2, 1/100⟩

/-- Static configuration assembled by _run_mapper before the loop starts:
    button_bindings (line 259), the axis and trigger configs (lines 266-271)
    and the exit button index (line 230). -/
structure RunConfig where
  buttonBindings : List (Int × VKey)
  leftAxis : AxisConfig
  rightAxis : MouseAxisConfig
  leftTrigger : TriggerConfig
  rightTrigger : TriggerConfig
  exit_button : Int
deriving DecidableEq

/-- The setup phase of _run_mapper (lines 226-271): extract the layout dicts
    (raising KeyError on a missing key, lines 227-229), default the exit
    button to 6 (line 230), build button_bindings with defaulted face-button
    indices (lines 259-264), and read the pad and trigger indices (lines
    266-271, each a KeyError if absent).  Device acquisition (lines 232-243)
    happens between the top-level dict reads and the pad sub-key reads; it is
    an external collaborator and not modelled.  The eight resolve_key calls on
    fixed literals (lines 248-257) cannot fail (lemma key_bindings_resolved),
    so their results appear as the kb constants. -/
def run_mapper_setup (src : Option LayoutJson) (args : Args) : Except MapErr RunConfig :=
  match (load_layout src).axes with
  | none => Except.error (MapErr.keyError "axes")
  | some axes =>
  match (load_layout src).triggers with
  | none => Except.error (MapErr.keyError "triggers")
  | some triggers =>
  match (load_layout src).buttons with
  | none => Except.error (MapErr.keyError "buttons")
  | some buttons =>
  match axes.left_pad with
  | none => Except.error (MapErr.keyError "left_pad")
  | some lp =>
  match lp.x with
  | none => Except.error (MapErr.keyError "x")
  | some lpx =>
  match lp.y with
  | none => Except.error (MapErr.keyError "y")
  | some lpy =>
  match axes.right_pad with
  | none => Except.error (MapErr.keyError "right_pad")
  | some rp =>
  match rp.x with
  | none => Except.error (MapErr.keyError "x")
  | some rpx =>
  match rp.y with
  | none => Except.error (MapErr.keyError "y")
  | some rpy =>
  match triggers.left with
  | none => Except.error (MapErr.keyError "left")
  | some tl =>
  match triggers.right with
  | none => Except.error (MapErr.keyError "right")
  | some tr =>
  Except.ok
    ⟨dictSet (dictSet (dictSet (dictSet ([] : List (Int × VKey))
        (buttons.a.getD 0) kb_space) (buttons.b.getD 1) kb_escape)
        (buttons.x.getD 2) kb_r) (buttons.y.getD 3) kb_e,
     ⟨lpx, lpy, args.dpad_threshold⟩,
     ⟨rpx, rpy, args.mouse_sensitivity, args.mouse_deadzone⟩,
     ⟨tl, args.trigger_threshold, "left"⟩,
     ⟨tr, args.trigger_threshold, "right"⟩,
     (load_layout src).exit_button.getD 6⟩

/-- Latch maps of the loop: key_state over virtual keys. -/
abbrev KeyMap : Type := List (VKey × Bool)

/-- mouse_state over mouse buttons. -/
abbrev MouseMap : Type := List (MouseButton × Bool)

/-- button_state over physical button indices. -/
abbrev ButtonMap : Type := List (Int × Bool)

/-- Python _press (lines 186-189): call the sink and latch only when the key is not
    already marked held. -/
def press (m : KeyMap) (k : VKey) : KeyMap × List Event :=
  if dictGet m k = true then (m, [])
  else (dictSet m k true, [Event.keyDown k])

/-- Python _release (lines 192-195): call the sink and unlatch only when the key is
    marked held. -/
def release (m : KeyMap) (k : VKey) : KeyMap × List Event :=
  if dictGet m k = true then (dictSet m k false, [Event.keyUp k])
  else (m, [])

/-- Python _update_axis_keys (lines 198-207): at or beyond the negative threshold
    press the negative key and release the positive one; at or beyond the
    positive threshold the reverse; strictly inside, release both. -/
def update_axis_keys (v : ℚ) (nk pk : VKey) (m : KeyMap) (t : ℚ) : KeyMap × List Event :=
  if v ≤ -t then
    let p1 := press m nk
    let p2 := release p1.1 pk
    (p2.1, p1.2 ++ p2.2)
  else if t ≤ v then
    let p1 := press m pk
    let p2 := release p1.1 nk
    (p2.1, p1.2 ++ p2.2)
  else
    let p1 := release m nk
    let p2 := release p1.1 pk
    (p2.1, p1.2 ++ p2.2)

/-- Python _update_trigger (lines 210-218): at or beyond the threshold press the
    mouse button if not held; below it release the button if held. -/
def update_trigger (v : ℚ) (m : MouseMap) (b : MouseButton) (t : ℚ) : MouseMap × List Event :=
  if t ≤ v then
    if dictGet m b = true then (m, [])
    else (dictSet m b true, [Event.mousePress b])
  else
    if dictGet m b = true then (dictSet m b false, [Event.mouseRelease b])
    else (m, [])

/-- Right-pad mouse motion of the loop body (lines 288-294): outside the
    deadzone on either axis, truncate value times sensitivity per axis and
    move only when some component is non-zero. -/
def mouse_move_events (x y sens dz : ℚ) : List Event :=
  if dz ≤ |x| ∨ dz ≤ |y| then
    if int_trunc (x * sens) ≠ 0 ∨ int_trunc (y * sens) ≠ 0 then
      [Event.mouseMove (int_trunc (x * sens)) (int_trunc (y * sens))]
    else []
  else []

/-- One step of the face-button loop body (lines 301-308) for a single
    binding: edge-triggered press on false-to-true, release on true-to-false,
    nothing otherwise. -/
def update_button (k : VKey) (idx : Int) (pressed_now : Bool) (bs : ButtonMap) :
    ButtonMap × List Event :=
  if pressed_now = true ∧ dictGet bs idx = false then
    (dictSet bs idx true, [Event.keyDown k])
  else if pressed_now = false ∧ dictGet bs idx = true then
    (dictSet bs idx false, [Event.keyUp k])
  else (bs, [])

/-- The state of the physical controller observed during one tick: axis value
    per axis index and boolean pressed state per button index. -/
structure TickInput where
  axes : Int → ℚ
  buttons : Int → Bool

/-- The face-button loop (lines 301-308) over all of button_bindings in dict
    insertion order. -/
def update_buttons (bb : List (Int × VKey)) (inp : TickInput) (bs : ButtonMap) :
    ButtonMap × List Event :=
  match bb with
  | [] => (bs, [])
  | p :: rest =>
    let q := update_button p.2 p.1 (inp.buttons p.1) bs
    let r := update_buttons rest inp q.1
    (r.1, q.2 ++ r.2)

/-- The three latch dictionaries of the loop (lines 273-275). -/
structure MapperState where
  key_state : KeyMap
  mouse_state : MouseMap
  button_state : ButtonMap

/-- All three dictionaries start empty (lines 273-275). -/
def initState : MapperState := ⟨[], [], []⟩

/-- One iteration of the polling loop body (lines 281-312): left pad to WASD,
    right pad to mouse motion, triggers to mouse buttons, face buttons to
    keys, then the exit-button test.  Returns the new state, the sink calls
    of this tick in program order, and whether the exit button read true. -/
def tick (cfg : RunConfig) (inp : TickInput) (s : MapperState) :
    MapperState × List Event × Bool :=
  let p1 := update_axis_keys (inp.axes cfg.leftAxis.x_axis) kb_a kb_d
    s.key_state cfg.leftAxis.threshold
  let p2 := update_axis_keys (inp.axes cfg.leftAxis.y_axis) kb_w kb_s
    p1.1 cfg.leftAxis.threshold
  let e3 := mouse_move_events (inp.axes cfg.rightAxis.x_axis)
    (inp.axes cfg.rightAxis.y_axis) cfg.rightAxis.sensitivity cfg.rightAxis.deadzone
  let p4 := update_trigger (inp.axes cfg.leftTrigger.axis) s.mouse_state
    MouseButton.left cfg.leftTrigger.threshold
  let p5 := update_trigger (inp.axes cfg.rightTrigger.axis) p4.1
    MouseButton.right cfg.rightTrigger.threshold
  let p6 := update_buttons cfg.buttonBindings inp s.button_state
  (⟨p2.1, p5.1, p6.1⟩,
   p1.2 ++ p2.2 ++ e3 ++ p4.2 ++ p5.2 ++ p6.2,
   inp.buttons cfg.exit_button)

/-- The polling loop (lines 280-314) driven by a finite trace of controller
    snapshots: stop when the exit button reads true, or when the trace ends
    (modelling a fatal mid-loop error or forced stop, after which the finally
    block still runs).  Returns the state at loop exit and the sink calls. -/
def run_loop (cfg : RunConfig) : List TickInput → MapperState → MapperState × List Event
  | [], s => (s, [])
  | inp :: rest, s =>
    let t := tick cfg inp s
    if t.2.2 = true then (t.1, t.2.1)
    else ((run_loop cfg rest t.1).1, t.2.1 ++ (run_loop cfg rest t.1).2)

/-- The finally block of _run_mapper (lines 315-324): release every entry
    still marked held in key_state, then in button_state (through its
    button_bindings key — always present in real runs, see no_stuck_input),
    then in mouse_state. -/
def drain_events (bb : List (Int × VKey)) (s : MapperState) : List Event :=
  (s.key_state.filterMap fun p => if p.2 = true then some (Event.keyUp p.1) else none)
  ++ (s.button_state.filterMap fun p =>
        if p.2 = true then
          match alistFind bb p.1 with
          | some k => some (Event.keyUp k)
          | none => none
        else none)
  ++ (s.mouse_state.filterMap fun p =>
        if p.2 = true then some (Event.mouseRelease p.1) else none)

/-- A whole run of the mapper loop: the sink calls of the polling phase
    followed by the sink calls of the draining (finally) phase. -/
def run_mapper (cfg : RunConfig) (inputs : List TickInput) : List Event :=
  (run_loop cfg inputs initState).2
  ++ drain_events cfg.buttonBindings (run_loop cfg inputs initState).1

/-- The RunConfig produced from the default layout and default arguments. -/
def defaultConfig : RunConfig :=
  ⟨[(0, kb_space), (1, kb_escape), (2, kb_r), (3, kb_e)],
   ⟨0, 1, 45/100⟩,
   ⟨2, 3, 18, 8/100⟩,
   ⟨4, 1/2, "left"⟩,
   ⟨5, 1/2, "right"⟩,
   6⟩

/-- Arguments with every numeric tuning value an integer: sensitivity 2,
    deadzone 1, dpad threshold 1, trigger threshold 1, poll interval 1. -/
def argsW : Args := ⟨0, 2, 1, 1, 1, 1⟩

/-- The RunConfig produced from the default layout and argsW. -/
def cfgW : RunConfig :=
  ⟨[(0, kb_space), (1, kb_escape), (2, kb_r), (3, kb_e)],
   ⟨0, 1, 1⟩,
   ⟨2, 3, 2, 1⟩,
   ⟨4, 1, "left"⟩,
   ⟨5, 1, "right"⟩,
   6⟩

/-- An override layout identical to the default except that the exit_button
    field is absent. -/
def partialLayout : LayoutJson :=
  ⟨DEFAULT_LAYOUT.axes, DEFAULT_LAYOUT.triggers, DEFAULT_LAYOUT.buttons, none⟩

/-- A controller snapshot: left pad pushed fully left (axis 0 at -1), left
    trigger fully pulled (axis 4 at 1), face button a (index 0) held, all
    else neutral. -/
def inp_b : TickInput :=
  ⟨fun i => if i = 4 then 1 else if i = 0 then -1 else 0,
   fun i => i == 0⟩

/-- Movement keys driven by the left pad. -/
abbrev MoveKey (k : VKey) : Prop := k = kb_a ∨ k = kb_d ∨ k = kb_w ∨ k = kb_s

/-- Face keys appearing as button_bindings values. -/
abbrev FaceKey (k : VKey) : Prop :=
  k = kb_space ∨ k = kb_escape ∨ k = kb_r ∨ k = kb_e

/-- Every key_state entry concerns a movement key. -/
abbrev KSGood (m : KeyMap) : Prop := ∀ p ∈ m, MoveKey p.1

/-- Every button_bindings value is a face key. -/
abbrev BBGood (bb : List (Int × VKey)) : Prop := ∀ p ∈ bb, FaceKey p.2

/-- Every button_state index marked held has an entry in button_bindings (so
    the drain lookup of line 321 cannot raise). -/
abbrev ButtonsOK (bb : List (Int × VKey)) (bs : ButtonMap) : Prop :=
  ∀ i, dictGet bs i = true → (alistFind bb i).isSome = true

/-- The fixed set of virtual keyboard keys the mapper can emit. -/
def fixedKeys : List VKey :=
  [kb_w, kb_a, kb_s, kb_d, kb_space, kb_escape, kb_r, kb_e]

/- ————————————————— Helper lemmas ————————————————— -/

theorem alistFind_dictSet_self {α β : Type} [DecidableEq α]
    (m : List (α × β)) (k : α) (v : β) :
    alistFind (dictSet m k v) k = some v := by
  induction m with
  | nil => simp [dictSet, alistFind]
  | cons p rest ih =>
    by_cases h : p.1 = k
    · simp [dictSet, h, alistFind]
    · simp [dictSet, h, alistFind, ih]

theorem alistFind_dictSet_ne {α β : Type} [DecidableEq α]
    (m : List (α × β)) (k i : α) (v : β) (h : i ≠ k) :
    alistFind (dictSet m k v) i = alistFind m i := by
  induction m with
  | nil => simp [dictSet, alistFind, Ne.symm h]
  | cons p rest ih =>
    by_cases hp : p.1 = k
    · simp [dictSet, alistFind, hp, Ne.symm h]
    · simp [dictSet, alistFind, hp, ih]

theorem dictGet_dictSet_self {α : Type} [DecidableEq α]
    (m : List (α × Bool)) (k : α) (v : Bool) :
    dictGet (dictSet m k v) k = v := by
  simp [dictGet, alistFind_dictSet_self]

theorem dictGet_dictSet_ne {α : Type} [DecidableEq α]
    (m : List (α × Bool)) (k i : α) (v : Bool) (h : i ≠ k) :
    dictGet (dictSet m k v) i = dictGet m i := by
  simp [dictGet, alistFind_dictSet_ne m k i v h]

theorem mem_dictSet {α β : Type} [DecidableEq α]
    (m : List (α × β)) (k : α) (v : β) (p : α × β) (hp : p ∈ dictSet m k v) :
    p = (k, v) ∨ p ∈ m := by
  induction m with
  | nil => simpa [dictSet] using hp
  | cons q rest ih =>
    by_cases h : q.1 = k
    · simp [dictSet, h] at hp
      rcases hp with h1 | h1
      · exact Or.inl (by simp [h1])
      · exact Or.inr (List.mem_cons_of_mem _ h1)
    · simp only [dictSet, if_neg h, List.mem_cons] at hp
      rcases hp with h1 | h1
      · exact Or.inr (by simp [h1])
      · rcases ih h1 with h2 | h2
        · exact Or.inl h2
        · exact Or.inr (List.mem_cons_of_mem _ h2)

theorem alistFind_mem {α β : Type} [DecidableEq α]
    {m : List (α × β)} {k : α} {v : β} (h : alistFind m k = some v) :
    (k, v) ∈ m := by
  induction m with
  | nil => simp [alistFind] at h
  | cons p rest ih =>
    by_cases hp : p.1 = k
    · simp only [alistFind, if_pos hp, Option.some.injEq] at h
      exact List.mem_cons.mpr (Or.inl (Prod.ext hp h).symm)
    · simp only [alistFind, if_neg hp] at h
      exact List.mem_cons_of_mem _ (ih h)

theorem mem_alistFind_isSome {α β : Type} [DecidableEq α]
    {m : List (α × β)} {k : α} {v : β} (h : (k, v) ∈ m) :
    (alistFind m k).isSome = true := by
  induction m with
  | nil => simp at h
  | cons p rest ih =>
    rcases List.mem_cons.mp h with h1 | h1
    · simp [alistFind, ← h1]
    · by_cases hp : p.1 = k
      · simp [alistFind, hp]
      · simpa [alistFind, hp] using ih h1

theorem dictGet_true_find {α : Type} [DecidableEq α]
    {m : List (α × Bool)} {k : α} (h : dictGet m k = true) :
    alistFind m k = some true := by
  unfold dictGet at h
  cases hf : alistFind m k with
  | none => rw [hf] at h; simp at h
  | some b => rw [hf] at h; simp at h; rw [h]

theorem press_get_self (m : KeyMap) (k : VKey) : dictGet (press m k).1 k = true := by
  by_cases h : dictGet m k = true
  · simp [press, h]
  · simp [press, h, dictGet_dictSet_self]

theorem press_get_ne (m : KeyMap) (k i : VKey) (h : i ≠ k) :
    dictGet (press m k).1 i = dictGet m i := by
  by_cases hk : dictGet m k = true <;> simp [press, hk, dictGet_dictSet_ne m k i true h]

theorem release_get_self (m : KeyMap) (k : VKey) : dictGet (release m k).1 k = false := by
  by_cases h : dictGet m k = true
  · simp [release, h, dictGet_dictSet_self]
  · have h2 : dictGet m k = false := by simpa using h
    simp [release, h2]

theorem release_get_ne (m : KeyMap) (k i : VKey) (h : i ≠ k) :
    dictGet (release m k).1 i = dictGet m i := by
  by_cases hk : dictGet m k = true <;> simp [release, hk, dictGet_dictSet_ne m k i false h]

theorem press_of_held {m : KeyMap} {k : VKey} (h : dictGet m k = true) :
    press m k = (m, []) := by simp [press, h]

theorem press_of_not_held {m : KeyMap} {k : VKey} (h : dictGet m k = false) :
    press m k = (dictSet m k true, [Event.keyDown k]) := by simp [press, h]

theorem release_of_held {m : KeyMap} {k : VKey} (h : dictGet m k = true) :
    release m k = (dictSet m k false, [Event.keyUp k]) := by simp [release, h]

theorem release_of_not_held {m : KeyMap} {k : VKey} (h : dictGet m k = false) :
    release m k = (m, []) := by simp [release, h]

/-- The eight key_bindings literals of lines 248-257 resolve, without error,
    to the kb constants used by the embedding. -/
theorem key_bindings_resolved :
    resolve_key "w" = Except.ok kb_w ∧ resolve_key "a" = Except.ok kb_a ∧
    resolve_key "s" = Except.ok kb_s ∧ resolve_key "d" = Except.ok kb_d ∧
    resolve_key "space" = Except.ok kb_space ∧
    resolve_key "escape" = Except.ok kb_escape ∧
    resolve_key "r" = Except.ok kb_r ∧ resolve_key "e" = Except.ok kb_e :=
  ⟨rfl, rfl, rfl, rfl, rfl, rfl, rfl, rfl⟩

/- ————————————————— C3 ————————————————— -/

/-- C3: latching is idempotent.  Pressing a key already marked held performs
    no sink call, so two consecutive presses from a non-held state inject
    exactly one down event; releasing a key not marked held performs no sink
    call, so two consecutive releases inject exactly one up event from a held
    state and none from a non-held state; the trigger latch (_update_trigger)
    likewise performs no sink call on a press of a held button or a release
    of a non-held one. -/
theorem idempotent_latching (m : KeyMap) (k : VKey) (mm : MouseMap)
    (b : MouseButton) (v t : ℚ) :
    (dictGet m k = true → press m k = (m, [])) ∧
    (dictGet m k = false →
       (press m k).2 ++ (press (press m k).1 k).2 = [Event.keyDown k]) ∧
    (dictGet m k = true →
       (release m k).2 ++ (release (release m k).1 k).2 = [Event.keyUp k]) ∧
    (dictGet m k = false →
       (release m k).2 ++ (release (release m k).1 k).2 = []) ∧
    (dictGet mm b = true → t ≤ v → update_trigger v mm b t = (mm, [])) ∧
    (dictGet mm b = false → v < t → update_trigger v mm b t = (mm, [])) := by
  refine ⟨fun h => ?_, fun h => ?_, fun h => ?_, fun h => ?_,
    fun h hv => ?_, fun h hv => ?_⟩
  · exact press_of_held h
  · have e2 : (press (press m k).1 k).2 = [] := by
      rw [press_of_held (press_get_self m k)]
    rw [e2, press_of_not_held h]
    rfl
  · have e2 : (release (release m k).1 k).2 = [] := by
      rw [release_of_not_held (release_get_self m k)]
    rw [e2, release_of_held h]
    rfl
  · simp [release, h]
  · simp [update_trigger, hv, h]
  · have h2 : ¬ (t ≤ v) := not_le.mpr hv
    simp [update_trigger, h2, h]

/-- Witness for C3 at concrete inputs. -/
theorem idempotent_latching_witness :
    (press [] kb_a).2 ++ (press (press [] kb_a).1 kb_a).2 = [Event.keyDown kb_a] ∧
    update_trigger 0 [] MouseButton.left 1 = ([], []) :=
  ⟨(idempotent_latching [] kb_a [] MouseButton.left 0 1).2.1 rfl,
   (idempotent_latching [] kb_a [] MouseButton.left 0 1).2.2.2.2.2 rfl (by decide)⟩

/- ————————————————— C4 ————————————————— -/

/-- C4: threshold symmetry of _update_axis_keys, per axis.  With a positive
    threshold t, a value at or below -t latches the negative key held and the
    positive key released; a value at or above t latches the positive key held
    and the negative key released; a value strictly inside (-t, t) latches
    both released — no hysteresis. -/
theorem threshold_symmetry (v t : ℚ) (nk pk : VKey) (m : KeyMap)
    (hne : nk ≠ pk) (ht : 0 < t) :
    (v ≤ -t → dictGet (update_axis_keys v nk pk m t).1 nk = true ∧
       dictGet (update_axis_keys v nk pk m t).1 pk = false) ∧
    (t ≤ v → dictGet (update_axis_keys v nk pk m t).1 pk = true ∧
       dictGet (update_axis_keys v nk pk m t).1 nk = false) ∧
    (-t < v → v < t → dictGet (update_axis_keys v nk pk m t).1 nk = false ∧
       dictGet (update_axis_keys v nk pk m t).1 pk = false) := by
  refine ⟨fun h => ?_, fun h => ?_, fun h1 h2 => ?_⟩
  · simp only [update_axis_keys, if_pos h]
    exact ⟨by rw [release_get_ne _ _ _ hne, press_get_self],
      release_get_self _ _⟩
  · have hno : ¬ (v ≤ -t) := by intro hc; linarith
    simp only [update_axis_keys, if_neg hno, if_pos h]
    exact ⟨by rw [release_get_ne _ _ _ hne.symm, press_get_self],
      release_get_self _ _⟩
  · have hno : ¬ (v ≤ -t) := by intro hc; linarith
    have hno2 : ¬ (t ≤ v) := not_le.mpr h2
    simp only [update_axis_keys, if_neg hno, if_neg hno2]
    exact ⟨by rw [release_get_ne _ _ _ hne, release_get_self],
      release_get_self _ _⟩

/-- Witness for C4 at a concrete axis value at the positive threshold. -/
theorem threshold_symmetry_witness :
    dictGet (update_axis_keys 1 kb_a kb_d [] 1).1 kb_d = true ∧
    dictGet (update_axis_keys 1 kb_a kb_d [] 1).1 kb_a = false :=
  (threshold_symmetry 1 1 kb_a kb_d [] (by decide) (by decide)).2.1 (by decide)

/- ————————————————— C5 ————————————————— -/

/-- C5: deadzone gating of the right pad.  When both axes are strictly inside
    the deadzone no mouse-move event is emitted at all; otherwise each delta
    is the truncation of value times sensitivity, computed independently per
    axis, and a single move event is emitted exactly when some component is
    non-zero; with deadzone 8/100 and sensitivity 18, x = 5/100 produces no
    event and x = 2/10 produces the move (3, 0). -/
theorem deadzone_gating (x y sens dz : ℚ) :
    (|x| < dz → |y| < dz → mouse_move_events x y sens dz = []) ∧
    ((dz ≤ |x| ∨ dz ≤ |y|) →
       (int_trunc (x * sens) ≠ 0 ∨ int_trunc (y * sens) ≠ 0) →
       mouse_move_events x y sens dz =
         [Event.mouseMove (int_trunc (x * sens)) (int_trunc (y * sens))]) ∧
    ((dz ≤ |x| ∨ dz ≤ |y|) → int_trunc (x * sens) = 0 → int_trunc (y * sens) = 0 →
       mouse_move_events x y sens dz = []) ∧
    mouse_move_events (5/100) 0 18 (8/100) = [] ∧
    mouse_move_events (2/10) 0 18 (8/100) = [Event.mouseMove 3 0] := by
  refine ⟨fun h1 h2 => ?_, fun h1 h2 => ?_, fun h1 h2 h3 => ?_, ?_, ?_⟩
  · have hno : ¬ (dz ≤ |x| ∨ dz ≤ |y|) :=
      not_or.mpr ⟨not_le.mpr h1, not_le.mpr h2⟩
    simp [mouse_move_events, hno]
  · simp [mouse_move_events, h1, h2]
  · simp [mouse_move_events, h1, h2, h3]
  · norm_num [mouse_move_events, int_trunc, abs_of_nonneg]
  · norm_num [mouse_move_events, int_trunc, abs_of_nonneg]
    decide

/-- Witness for C5 at a concrete axis value outside the deadzone. -/
theorem deadzone_gating_witness :
    mouse_move_events 1 0 2 1 =
      [Event.mouseMove (int_trunc ((1 : ℚ) * 2)) (int_trunc ((0 : ℚ) * 2))] :=
  (deadzone_gating 1 0 2 1).2.1 (Or.inl (by norm_num))
    (Or.inl (by norm_num [int_trunc]))

/- ————————————————— C6 ————————————————— -/

/-- C6: trigger mapping of _update_trigger.  A value at or above the
    threshold presses the bound mouse button when it is not already held; a
    value strictly below releases it when held; otherwise no sink call; with
    threshold 1/2, the value sequence 49/100, 1/2, 3/10 produces no event,
    then exactly one press, then exactly one release. -/
theorem trigger_mapping (v t : ℚ) (m : MouseMap) (b : MouseButton) :
    (t ≤ v → dictGet m b = false →
       update_trigger v m b t = (dictSet m b true, [Event.mousePress b])) ∧
    (t ≤ v → dictGet m b = true → update_trigger v m b t = (m, [])) ∧
    (v < t → dictGet m b = true →
       update_trigger v m b t = (dictSet m b false, [Event.mouseRelease b])) ∧
    (v < t → dictGet m b = false → update_trigger v m b t = (m, [])) ∧
    (update_trigger (49/100) [] b (1/2) = ([], []) ∧
     update_trigger (1/2) [] b (1/2) = ([(b, true)], [Event.mousePress b]) ∧
     update_trigger (3/10) [(b, true)] b (1/2) =
       ([(b, false)], [Event.mouseRelease b])) := by
  refine ⟨fun h1 h2 => ?_, fun h1 h2 => ?_, fun h1 h2 => ?_, fun h1 h2 => ?_,
    ?_, ?_, ?_⟩
  · simp [update_trigger, h1, h2]
  · simp [update_trigger, h1, h2]
  · have hno : ¬ (t ≤ v) := not_le.mpr h1
    simp [update_trigger, hno, h2]
  · have hno : ¬ (t ≤ v) := not_le.mpr h1
    simp [update_trigger, hno, h2]
  · norm_num [update_trigger, dictGet, alistFind]
  · norm_num [update_trigger, dictGet, alistFind, dictSet]
  · norm_num [update_trigger, dictGet, alistFind, dictSet]

/-- Witness for C6 at a value exactly at the threshold. -/
theorem trigger_mapping_witness :
    update_trigger 1 [] MouseButton.left 1 =
      (dictSet [] MouseButton.left true, [Event.mousePress MouseButton.left]) :=
  (trigger_mapping 1 1 [] MouseButton.left).1 (by decide) rfl

/- ————————————————— C7 ————————————————— -/

/-- C7: the key resolver recognizes the fixed special-key table after
    lower-casing and returns the mapped special key; any other input of
    length one resolves to its literal character; every other input fails
    with an error naming the offending text.  resolve_key is a pure
    function, so it has no side effects. -/
theorem resolve_key_spec (name : String) :
    (∀ v, alistFind SPECIAL_KEYS (str_lower name) = some v →
       resolve_key name = Except.ok (VKey.special v)) ∧
    (alistFind SPECIAL_KEYS (str_lower name) = none → name.length = 1 →
       resolve_key name = Except.ok (VKey.char (name.get ⟨0⟩))) ∧
    (alistFind SPECIAL_KEYS (str_lower name) = none → name.length ≠ 1 →
       resolve_key name = Except.error (MapErr.unsupportedBinding name)) := by
  refine ⟨fun v h => ?_, fun h h1 => ?_, fun h h1 => ?_⟩
  · simp [resolve_key, h]
  · simp [resolve_key, h, h1]
  · simp [resolve_key, h, h1]

/-- Witness for C7 on each branch. -/
theorem resolve_key_spec_witness :
    resolve_key "Esc" = Except.ok (VKey.special "esc") ∧
    resolve_key "r" = Except.ok (VKey.char ("r".get ⟨0⟩)) ∧
    resolve_key "f13" = Except.error (MapErr.unsupportedBinding "f13") :=
  ⟨(resolve_key_spec "Esc").1 "esc" (by decide),
   (resolve_key_spec "r").2.1 (by decide) (by decide),
   (resolve_key_spec "f13").2.2 (by decide) (by decide)⟩

/- ————————————————— C8 ————————————————— -/

/-- C8 counterexample: the claim says the input made of the single dollar
    character fails with UnsupportedBinding, but it is one character long, so
    _resolve_key returns it as a printable key instead of failing. -/
theorem key_table_counterexample : resolve_key "$" = Except.ok (VKey.char '$') := rfl

/-- C8 amended: space resolves to the Space special key, Esc to Escape, r to
    the printable character r; the dollar sign, being a single character,
    resolves to the printable dollar character; a genuinely multi-character
    unrecognized name such as f13 fails with UnsupportedBinding. -/
theorem key_table_amended :
    resolve_key "space" = Except.ok (VKey.special "space") ∧
    resolve_key "Esc" = Except.ok (VKey.special "esc") ∧
    resolve_key "r" = Except.ok (VKey.char 'r') ∧
    resolve_key "$" = Except.ok (VKey.char '$') ∧
    resolve_key "f13" = Except.error (MapErr.unsupportedBinding "f13") :=
  ⟨rfl, rfl, rfl, rfl, rfl⟩

/- ————————————————— C9 ————————————————— -/

/-- C9: face-button handling is edge-triggered against the per-button held
    map: a false-to-true transition presses the bound key exactly once, a
    true-to-false transition releases it exactly once, and an unchanged state
    emits nothing. -/
theorem edge_triggered_buttons (k : VKey) (idx : Int) (bs : ButtonMap) :
    (dictGet bs idx = false →
       update_button k idx true bs = (dictSet bs idx true, [Event.keyDown k])) ∧
    (dictGet bs idx = true →
       update_button k idx false bs = (dictSet bs idx false, [Event.keyUp k])) ∧
    (dictGet bs idx = true → update_button k idx true bs = (bs, [])) ∧
    (dictGet bs idx = false → update_button k idx false bs = (bs, [])) := by
  refine ⟨fun h => ?_, fun h => ?_, fun h => ?_, fun h => ?_⟩ <;>
    simp [update_button, h]

/-- Witness for C9 on a rising edge. -/
theorem edge_triggered_buttons_witness :
    update_button kb_space 0 true [] = (dictSet [] 0 true, [Event.keyDown kb_space]) :=
  (edge_triggered_buttons kb_space 0 []).1 rfl

/- ————————————————— C2 ————————————————— -/

/-- Inversion of a successful setup: the button bindings are the four-entry
    dict built at line 259, with face keys as values, and the exit button is
    the defaulted exit_button field of the loaded layout. -/
theorem run_mapper_setup_ok_inversion {src : Option LayoutJson} {args : Args}
    {cfg : RunConfig} (h : run_mapper_setup src args = Except.ok cfg) :
    (∃ i1 i2 i3 i4, cfg.buttonBindings =
       dictSet (dictSet (dictSet (dictSet ([] : List (Int × VKey)) i1 kb_space)
         i2 kb_escape) i3 kb_r) i4 kb_e) ∧
    cfg.exit_button = (load_layout src).exit_button.getD 6 := by
  unfold run_mapper_setup at h
  repeat' split at h
  any_goals exact Except.noConfusion h
  injection h with h2
  subst h2
  exact ⟨⟨_, _, _, _, rfl⟩, rfl⟩

/-- C2 corrected: loading an override performs no validation.  A missing
    top-level axes key raises a plain KeyError (not a typed InvalidLayout),
    and a missing exit_button field is not an error at all: the setup
    succeeds and silently falls back to the default exit-button index 6 —
    a partial override is not rejected. -/
theorem layout_no_validation (src : LayoutJson) (args : Args) (cfg : RunConfig) :
    (src.axes = none →
       run_mapper_setup (some src) args = Except.error (MapErr.keyError "axes")) ∧
    (run_mapper_setup (some src) args = Except.ok cfg →
       cfg.exit_button = src.exit_button.getD 6) := by
  constructor
  · intro h
    simp [run_mapper_setup, load_layout, h]
  · intro h
    have h2 := (run_mapper_setup_ok_inversion h).2
    simpa [load_layout] using h2

/-- C2 counterexample: a layout override identical to the default except for
    an absent exit_button field loads and sets up successfully — with exit
    button 6 — where the claim requires a validation failure. -/
theorem layout_no_validation_counterexample :
    Except.map RunConfig.exit_button (run_mapper_setup (some partialLayout) defaultArgs) =
      Except.ok 6 := rfl

/-- Witness for C2: a layout with no axes key fails with the KeyError, and
    the partial layout with no exit_button succeeds with exit button 6. -/
theorem layout_no_validation_witness :
    run_mapper_setup (some ⟨none, none, none, none⟩) defaultArgs =
      Except.error (MapErr.keyError "axes") ∧
    defaultConfig.exit_button = partialLayout.exit_button.getD 6 :=
  ⟨(layout_no_validation ⟨none, none, none, none⟩ defaultArgs defaultConfig).1 rfl,
   (layout_no_validation partialLayout defaultArgs defaultConfig).2 rfl⟩

/- ————————————— Event classification lemmas ————————————— -/

theorem press_snd_key {m : KeyMap} {k : VKey} {e : Event}
    (h : e ∈ (press m k).2) : e = Event.keyDown k := by
  unfold press at h
  split at h <;> simp_all

theorem release_snd_key {m : KeyMap} {k : VKey} {e : Event}
    (h : e ∈ (release m k).2) : e = Event.keyUp k := by
  unfold release at h
  split at h <;> simp_all

theorem update_axis_keys_snd {v t : ℚ} {nk pk : VKey} {m : KeyMap} {e : Event}
    (h : e ∈ (update_axis_keys v nk pk m t).2) :
    e = Event.keyDown nk ∨ e = Event.keyUp nk ∨
    e = Event.keyDown pk ∨ e = Event.keyUp pk := by
  unfold update_axis_keys at h
  split at h
  · simp only [List.mem_append] at h
    rcases h with h1 | h1
    · exact Or.inl (press_snd_key h1)
    · exact Or.inr (Or.inr (Or.inr (release_snd_key h1)))
  · split at h
    · simp only [List.mem_append] at h
      rcases h with h1 | h1
      · exact Or.inr (Or.inr (Or.inl (press_snd_key h1)))
      · exact Or.inr (Or.inl (release_snd_key h1))
    · simp only [List.mem_append] at h
      rcases h with h1 | h1
      · exact Or.inr (Or.inl (release_snd_key h1))
      · exact Or.inr (Or.inr (Or.inr (release_snd_key h1)))

theorem update_trigger_snd {v t : ℚ} {m : MouseMap} {b : MouseButton} {e : Event}
    (h : e ∈ (update_trigger v m b t).2) :
    e = Event.mousePress b ∨ e = Event.mouseRelease b := by
  unfold update_trigger at h
  split at h <;> split at h <;> simp_all

theorem mouse_move_snd {x y sens dz : ℚ} {e : Event}
    (h : e ∈ mouse_move_events x y sens dz) :
    ∃ dx dy, e = Event.mouseMove dx dy := by
  unfold mouse_move_events at h
  split at h
  · split at h
    · simp at h
      exact ⟨_, _, h⟩
    · simp at h
  · simp at h

theorem update_button_snd {k : VKey} {idx : Int} {pn : Bool} {bs : ButtonMap}
    {e : Event} (h : e ∈ (update_button k idx pn bs).2) :
    e = Event.keyDown k ∨ e = Event.keyUp k := by
  unfold update_button at h
  split at h
  · simp_all
  · split at h <;> simp_all

theorem update_buttons_snd {inp : TickInput} :
    ∀ {l : List (Int × VKey)} {bs : ButtonMap} {e : Event},
      e ∈ (update_buttons l inp bs).2 →
      ∃ p, p ∈ l ∧ (e = Event.keyDown p.2 ∨ e = Event.keyUp p.2) := by
  intro l
  induction l with
  | nil => intro bs e h; simp [update_buttons] at h
  | cons p rest ih =>
    intro bs e h
    simp only [update_buttons, List.mem_append] at h
    rcases h with h | h
    · exact ⟨p, List.mem_cons_self _ _, update_button_snd h⟩
    · obtain ⟨q, hq, he⟩ := ih h
      exact ⟨q, List.mem_cons_of_mem _ hq, he⟩

/- ————————————— State-shape lemmas ————————————— -/

theorem press_fst_mem {m : KeyMap} {k : VKey} {p : VKey × Bool}
    (h : p ∈ (press m k).1) : p.1 = k ∨ p ∈ m := by
  unfold press at h
  split at h
  · exact Or.inr h
  · rcases mem_dictSet _ _ _ _ h with h1 | h1
    · exact Or.inl (by simp [h1])
    · exact Or.inr h1

theorem release_fst_mem {m : KeyMap} {k : VKey} {p : VKey × Bool}
    (h : p ∈ (release m k).1) : p.1 = k ∨ p ∈ m := by
  unfold release at h
  split at h
  · rcases mem_dictSet _ _ _ _ h with h1 | h1
    · exact Or.inl (by simp [h1])
    · exact Or.inr h1
  · exact Or.inr h

theorem update_axis_keys_fst_mem {v t : ℚ} {nk pk : VKey} {m : KeyMap}
    {p : VKey × Bool} (h : p ∈ (update_axis_keys v nk pk m t).1) :
    p.1 = nk ∨ p.1 = pk ∨ p ∈ m := by
  unfold update_axis_keys at h
  split at h
  · rcases release_fst_mem h with h1 | h1
    · exact Or.inr (Or.inl h1)
    · rcases press_fst_mem h1 with h2 | h2
      · exact Or.inl h2
      · exact Or.inr (Or.inr h2)
  · split at h
    · rcases release_fst_mem h with h1 | h1
      · exact Or.inl h1
      · rcases press_fst_mem h1 with h2 | h2
        · exact Or.inr (Or.inl h2)
        · exact Or.inr (Or.inr h2)
    · rcases release_fst_mem h with h1 | h1
      · exact Or.inr (Or.inl h1)
      · rcases release_fst_mem h1 with h2 | h2
        · exact Or.inl h2
        · exact Or.inr (Or.inr h2)

/- ————————————— ButtonsOK preservation ————————————— -/

theorem update_button_buttons_ok {bb : List (Int × VKey)} {bs : ButtonMap}
    (k : VKey) (idx : Int) (pn : Bool)
    (hidx : (alistFind bb idx).isSome = true) (hok : ButtonsOK bb bs) :
    ButtonsOK bb (update_button k idx pn bs).1 := by
  by_cases h1 : pn = true ∧ dictGet bs idx = false
  · simp only [update_button, if_pos h1]
    intro i hi
    by_cases he : i = idx
    · subst he
      exact hidx
    · rw [dictGet_dictSet_ne _ _ _ _ he] at hi
      exact hok i hi
  · by_cases h2 : pn = false ∧ dictGet bs idx = true
    · simp only [update_button, if_neg h1, if_pos h2]
      intro i hi
      by_cases he : i = idx
      · subst he
        exact hidx
      · rw [dictGet_dictSet_ne _ _ _ _ he] at hi
        exact hok i hi
    · simp only [update_button, if_neg h1, if_neg h2]
      exact hok

theorem update_buttons_buttons_ok {bb : List (Int × VKey)} (inp : TickInput) :
    ∀ (l : List (Int × VKey)) (bs : ButtonMap),
      (∀ p ∈ l, (alistFind bb p.1).isSome = true) → ButtonsOK bb bs →
      ButtonsOK bb (update_buttons l inp bs).1 := by
  intro l
  induction l with
  | nil => intro bs _ hok; simpa [update_buttons] using hok
  | cons p rest ih =>
    intro bs hl hok
    simp only [update_buttons]
    exact ih _ (fun q hq => hl q (List.mem_cons_of_mem _ hq))
      (update_button_buttons_ok _ _ _ (hl p (List.mem_cons_self _ _)) hok)

theorem bb_self_isSome {bb : List (Int × VKey)} :
    ∀ p ∈ bb, (alistFind bb p.1).isSome = true := by
  intro p hp
  exact mem_alistFind_isSome (by simpa using hp)

theorem tick_buttons_ok {cfg : RunConfig} {s : MapperState} (inp : TickInput)
    (hok : ButtonsOK cfg.buttonBindings s.button_state) :
    ButtonsOK cfg.buttonBindings (tick cfg inp s).1.button_state := by
  have e : (tick cfg inp s).1.button_state =
      (update_buttons cfg.buttonBindings inp s.button_state).1 := rfl
  rw [e]
  exact update_buttons_buttons_ok inp _ _ bb_self_isSome hok

theorem run_loop_buttons_ok (cfg : RunConfig) :
    ∀ (inputs : List TickInput) (s : MapperState),
      ButtonsOK cfg.buttonBindings s.button_state →
      ButtonsOK cfg.buttonBindings (run_loop cfg inputs s).1.button_state := by
  intro inputs
  induction inputs with
  | nil => intro s h; exact h
  | cons inp rest ih =>
    intro s h
    have ht := tick_buttons_ok inp h
    simp only [run_loop]
    split
    · exact ht
    · exact ih _ ht

/- ————————————— Drain membership lemmas ————————————— -/

theorem drain_key_mem {bb : List (Int × VKey)} {s : MapperState} {k : VKey}
    (h : dictGet s.key_state k = true) :
    Event.keyUp k ∈ drain_events bb s := by
  unfold drain_events
  apply List.mem_append_left
  apply List.mem_append_left
  exact List.mem_filterMap.mpr ⟨(k, true), alistFind_mem (dictGet_true_find h), by simp⟩

theorem drain_button_mem {bb : List (Int × VKey)} {s : MapperState} {i : Int}
    {k : VKey} (hi : dictGet s.button_state i = true)
    (hk : alistFind bb i = some k) :
    Event.keyUp k ∈ drain_events bb s := by
  unfold drain_events
  apply List.mem_append_left
  apply List.mem_append_right
  exact List.mem_filterMap.mpr
    ⟨(i, true), alistFind_mem (dictGet_true_find hi), by simp [hk]⟩

theorem drain_mouse_mem {bb : List (Int × VKey)} {s : MapperState}
    {b : MouseButton} (h : dictGet s.mouse_state b = true) :
    Event.mouseRelease b ∈ drain_events bb s := by
  unfold drain_events
  apply List.mem_append_right
  exact List.mem_filterMap.mpr ⟨(b, true), alistFind_mem (dictGet_true_find h), by simp⟩

/- ————————————————— C1 ————————————————— -/

/-- C1: however the polling loop ends — exit-button tick, mid-trace error or
    forced stop (the input trace simply ending) — every virtual input still
    recorded as held at that point receives a matching release through the
    injection sink during the draining step: every held movement key gets a
    key-up, every held face-button binding gets a key-up of its bound key
    (whose binding entry is guaranteed to exist), every held mouse button
    gets a mouse-release, and the whole run emits exactly the loop events
    followed by these drain events, so no virtual input is left held. -/
theorem no_stuck_input (cfg : RunConfig) (inputs : List TickInput) :
    (∀ k, dictGet (run_loop cfg inputs initState).1.key_state k = true →
       Event.keyUp k ∈
         drain_events cfg.buttonBindings (run_loop cfg inputs initState).1) ∧
    (∀ i, dictGet (run_loop cfg inputs initState).1.button_state i = true →
       ∃ k, alistFind cfg.buttonBindings i = some k ∧
         Event.keyUp k ∈
           drain_events cfg.buttonBindings (run_loop cfg inputs initState).1) ∧
    (∀ b, dictGet (run_loop cfg inputs initState).1.mouse_state b = true →
       Event.mouseRelease b ∈
         drain_events cfg.buttonBindings (run_loop cfg inputs initState).1) ∧
    run_mapper cfg inputs =
      (run_loop cfg inputs initState).2 ++
        drain_events cfg.buttonBindings (run_loop cfg inputs initState).1 := by
  refine ⟨fun k h => drain_key_mem h, fun i h => ?_,
    fun b h => drain_mouse_mem h, rfl⟩
  have hok : ButtonsOK cfg.buttonBindings
      (run_loop cfg inputs initState).1.button_state :=
    run_loop_buttons_ok cfg inputs initState (by intro i hi; simp [initState, dictGet, alistFind] at hi)
  obtain ⟨k, hk⟩ := Option.isSome_iff_exists.mp (hok i h)
  exact ⟨k, hk, drain_button_mem h hk⟩

/-- Witness for C1: after one tick holding the left pad low, the left
    trigger and face button a, the drain events release the held key and the
    held mouse button. -/
theorem no_stuck_input_witness :
    Event.keyUp kb_a ∈
      drain_events cfgW.buttonBindings (run_loop cfgW [inp_b] initState).1 ∧
    Event.mouseRelease MouseButton.left ∈
      drain_events cfgW.buttonBindings (run_loop cfgW [inp_b] initState).1 :=
  ⟨(no_stuck_input cfgW [inp_b]).1 kb_a (by decide),
   (no_stuck_input cfgW [inp_b]).2.2.1 MouseButton.left (by decide)⟩

/- ————————————————— C10 ————————————————— -/

theorem key_of_eq {e : Event} {k k2 : VKey}
    (h : e = Event.keyDown k2 ∨ e = Event.keyUp k2)
    (hk : e = Event.keyDown k ∨ e = Event.keyUp k) : k = k2 := by
  rcases h with rfl | rfl <;> rcases hk with h2 | h2 <;> simp_all

theorem move_in_fixed {k : VKey} (h : MoveKey k) : k ∈ fixedKeys := by
  rcases h with rfl | rfl | rfl | rfl <;> simp [fixedKeys]

theorem face_in_fixed {k : VKey} (h : FaceKey k) : k ∈ fixedKeys := by
  rcases h with rfl | rfl | rfl | rfl <;> simp [fixedKeys]

theorem tick_ks_good {cfg : RunConfig} {s : MapperState} (inp : TickInput)
    (h : KSGood s.key_state) : KSGood (tick cfg inp s).1.key_state := by
  have e : (tick cfg inp s).1.key_state =
      (update_axis_keys (inp.axes cfg.leftAxis.y_axis) kb_w kb_s
        (update_axis_keys (inp.axes cfg.leftAxis.x_axis) kb_a kb_d
          s.key_state cfg.leftAxis.threshold).1
        cfg.leftAxis.threshold).1 := rfl
  rw [e]
  intro p hp
  rcases update_axis_keys_fst_mem hp with h1 | h1 | h1
  · exact Or.inr (Or.inr (Or.inl h1))
  · exact Or.inr (Or.inr (Or.inr h1))
  · rcases update_axis_keys_fst_mem h1 with h2 | h2 | h2
    · exact Or.inl h2
    · exact Or.inr (Or.inl h2)
    · exact h p h2

theorem tick_snd_keys {cfg : RunConfig} {s : MapperState} {e : Event}
    (inp : TickInput) (he : e ∈ (tick cfg inp s).2.1) :
    ∀ k, (e = Event.keyDown k ∨ e = Event.keyUp k) →
      MoveKey k ∨ ∃ p, p ∈ cfg.buttonBindings ∧ k = p.2 := by
  intro k hk
  have e2 : (tick cfg inp s).2.1 =
      (update_axis_keys (inp.axes cfg.leftAxis.x_axis) kb_a kb_d
        s.key_state cfg.leftAxis.threshold).2 ++
      (update_axis_keys (inp.axes cfg.leftAxis.y_axis) kb_w kb_s
        (update_axis_keys (inp.axes cfg.leftAxis.x_axis) kb_a kb_d
          s.key_state cfg.leftAxis.threshold).1 cfg.leftAxis.threshold).2 ++
      mouse_move_events (inp.axes cfg.rightAxis.x_axis)
        (inp.axes cfg.rightAxis.y_axis) cfg.rightAxis.sensitivity
        cfg.rightAxis.deadzone ++
      (update_trigger (inp.axes cfg.leftTrigger.axis) s.mouse_state
        MouseButton.left cfg.leftTrigger.threshold).2 ++
      (update_trigger (inp.axes cfg.rightTrigger.axis)
        (update_trigger (inp.axes cfg.leftTrigger.axis) s.mouse_state
          MouseButton.left cfg.leftTrigger.threshold).1
        MouseButton.right cfg.rightTrigger.threshold).2 ++
      (update_buttons cfg.buttonBindings inp s.button_state).2 := rfl
  rw [e2] at he
  simp only [List.mem_append] at he
  rcases he with ((((h1 | h1) | h1) | h1) | h1) | h1
  · rcases update_axis_keys_snd h1 with h2 | h2 | h2 | h2
    · exact Or.inl (Or.inl (key_of_eq (Or.inl h2) hk))
    · exact Or.inl (Or.inl (key_of_eq (Or.inr h2) hk))
    · exact Or.inl (Or.inr (Or.inl (key_of_eq (Or.inl h2) hk)))
    · exact Or.inl (Or.inr (Or.inl (key_of_eq (Or.inr h2) hk)))
  · rcases update_axis_keys_snd h1 with h2 | h2 | h2 | h2
    · exact Or.inl (Or.inr (Or.inr (Or.inl (key_of_eq (Or.inl h2) hk))))
    · exact Or.inl (Or.inr (Or.inr (Or.inl (key_of_eq (Or.inr h2) hk))))
    · exact Or.inl (Or.inr (Or.inr (Or.inr (key_of_eq (Or.inl h2) hk))))
    · exact Or.inl (Or.inr (Or.inr (Or.inr (key_of_eq (Or.inr h2) hk))))
  · obtain ⟨dx, dy, rfl⟩ := mouse_move_snd h1
    rcases hk with h2 | h2 <;> simp_all
  · rcases update_trigger_snd h1 with rfl | rfl <;> rcases hk with h2 | h2 <;> simp_all
  · rcases update_trigger_snd h1 with rfl | rfl <;> rcases hk with h2 | h2 <;> simp_all
  · obtain ⟨p, hp, he2⟩ := update_buttons_snd h1
    exact Or.inr ⟨p, hp, key_of_eq he2 hk⟩

theorem drain_snd_keys {bb : List (Int × VKey)} {s : MapperState} {e : Event}
    (hks : KSGood s.key_state) (he : e ∈ drain_events bb s) :
    ∀ k, (e = Event.keyDown k ∨ e = Event.keyUp k) →
      MoveKey k ∨ ∃ p, p ∈ bb ∧ k = p.2 := by
  intro k hk
  unfold drain_events at he
  simp only [List.mem_append] at he
  rcases he with (he | he) | he
  · obtain ⟨p, hp, hf⟩ := List.mem_filterMap.mp he
    by_cases h2 : p.2 = true
    · simp only [h2, if_pos] at hf
      have hek : e = Event.keyUp p.1 := by simp_all
      have := key_of_eq (Or.inr hek) hk
      rw [this]
      exact Or.inl (hks p hp)
    · simp [h2] at hf
  · obtain ⟨p, hp, hf⟩ := List.mem_filterMap.mp he
    by_cases h2 : p.2 = true
    · simp only [h2, if_pos] at hf
      cases hfind : alistFind bb p.1 with
      | none => rw [hfind] at hf; simp at hf
      | some k2 =>
        rw [hfind] at hf
        simp only [Option.some.injEq] at hf
        have hek : e = Event.keyUp k2 := hf.symm
        have := key_of_eq (Or.inr hek) hk
        rw [this]
        exact Or.inr ⟨(p.1, k2), alistFind_mem hfind, rfl⟩
    · simp [h2] at hf
  · obtain ⟨p, hp, hf⟩ := List.mem_filterMap.mp he
    by_cases h2 : p.2 = true
    · simp only [h2, if_pos] at hf
      have hek : e = Event.mouseRelease p.1 := by simp_all
      subst hek
      rcases hk with h3 | h3 <;> simp_all
    · simp [h2] at hf

theorem run_loop_good (cfg : RunConfig) :
    ∀ (inputs : List TickInput) (s : MapperState), KSGood s.key_state →
      KSGood (run_loop cfg inputs s).1.key_state ∧
      (∀ e ∈ (run_loop cfg inputs s).2,
        ∀ k, (e = Event.keyDown k ∨ e = Event.keyUp k) →
          MoveKey k ∨ ∃ p, p ∈ cfg.buttonBindings ∧ k = p.2) := by
  intro inputs
  induction inputs with
  | nil =>
    intro s h
    exact ⟨h, by intro e he; simp [run_loop] at he⟩
  | cons inp rest ih =>
    intro s h
    have htick := @tick_ks_good cfg s inp h
    simp only [run_loop]
    split
    · exact ⟨htick, fun e he k hk => tick_snd_keys inp he k hk⟩
    · obtain ⟨ih1, ih2⟩ := ih (tick cfg inp s).1 htick
      refine ⟨ih1, ?_⟩
      intro e he k hk
      rcases List.mem_append.mp he with h1 | h1
      · exact tick_snd_keys inp h1 k hk
      · exact ih2 e h1 k hk

/-- C10: for every layout override and arguments whose setup succeeds, every
    keyboard key event the whole run can ever emit — loop phase and drain
    phase alike, over any input trace — concerns one of the eight fixed keys
    w, a, s, d, space, escape, r, e, all resolved before the loop begins; a
    layout override can change only which physical indices drive them. -/
theorem fixed_virtual_keys (src : Option LayoutJson) (args : Args)
    (cfg : RunConfig) (inputs : List TickInput) (e : Event) (k : VKey)
    (hcfg : run_mapper_setup src args = Except.ok cfg)
    (he : e ∈ run_mapper cfg inputs)
    (hk : e = Event.keyDown k ∨ e = Event.keyUp k) :
    k ∈ fixedKeys := by
  have hbb : BBGood cfg.buttonBindings := by
    obtain ⟨⟨i1, i2, i3, i4, hb⟩, _⟩ := run_mapper_setup_ok_inversion hcfg
    rw [hb]
    intro p hp
    rcases mem_dictSet _ _ _ _ hp with h1 | hp
    · exact Or.inr (Or.inr (Or.inr (by simp [h1])))
    rcases mem_dictSet _ _ _ _ hp with h1 | hp
    · exact Or.inr (Or.inr (Or.inl (by simp [h1])))
    rcases mem_dictSet _ _ _ _ hp with h1 | hp
    · exact Or.inr (Or.inl (by simp [h1]))
    rcases mem_dictSet _ _ _ _ hp with h1 | hp
    · exact Or.inl (by simp [h1])
    · simp at hp
  have hinit : KSGood initState.key_state := by
    intro p hp
    simp [initState] at hp
  obtain ⟨hks, hev⟩ := run_loop_good cfg inputs initState hinit
  unfold run_mapper at he
  rcases List.mem_append.mp he with h1 | h1
  · rcases hev e h1 k hk with hm | ⟨p, hp, rfl⟩
    · exact move_in_fixed hm
    · exact face_in_fixed (hbb p hp)
  · rcases drain_snd_keys hks h1 k hk with hm | ⟨p, hp, rfl⟩
    · exact move_in_fixed hm
    · exact face_in_fixed (hbb p hp)

/-- Witness for C10: the key-down of the a key emitted in a concrete run
    under the default layout lies in the fixed key set. -/
theorem fixed_virtual_keys_witness : kb_a ∈ fixedKeys :=
  fixed_virtual_keys none argsW cfgW [inp_b] (Event.keyDown kb_a) kb_a rfl
    (by decide) (Or.inl rfl)

end Sul
